import Mathlib

/-!
Verification of the picoboot programmer backend (src/picoboot.c).

The embedding models the serial transport as a trace of events: each
`serial_send` appends a `send` event carrying the exact bytes written, and
each one-byte acknowledgement read appends a `recv` event carrying the byte
received (`none` models a failed / timed-out `serial_recv`).  The ack bytes
the device would deliver are an input, given as a function from the index of
the read to its outcome.  `exit(1)` in the C source is modelled by the
`fatal` result, a `return -1` by `err`, and a normal return by `ok`.
-/

namespace Picoboot

/-- A protocol frame, mirroring `struct frame` in picoboot.c.  The `check`
field of the C struct is always overwritten with the checksum before any
send, so the model stores only the three caller-supplied bytes and computes
the checksum at serialization time. -/
structure Frame where
  data_lo : Nat
  data_hi : Nat
  command : Nat
deriving DecidableEq, Repr

/-- `MAX_FRAMES` from picoboot.c: size of the ack-pipeline window. -/
def MAX_FRAMES : Nat := 8

/-- `BOOTLOADER_SIZE` from picoboot.c: 2-byte virtual reset vector plus
64 bytes of bootloader code. -/
def BOOTLOADER_SIZE : Nat := 66

/-- Wire form of a frame: `data_lo, data_hi, check, command` with
`check = data_lo XOR data_hi XOR command`, as written by
`picoboot_send_frame` / `picoboot_buffered_send`. -/
def serializeFrame (f : Frame) : List Nat :=
  [f.data_lo, f.data_hi, f.data_lo ^^^ f.data_hi ^^^ f.command, f.command]

/-- One observable transport operation. -/
inductive Event where
  | send (bytes : List Nat)
  | recv (resp : Option Nat)
deriving DecidableEq, Repr

/-- Mutable state threaded through the backend: the caller's memory image
(`m->buf`), the static frame buffer of `picoboot_buffered_send` (as the list
of pending frames), and how many ack reads have been performed so far. -/
structure St where
  buf : List Nat
  pend : List Frame
  ackIdx : Nat
deriving DecidableEq, Repr

/-- Result of a backend operation: `ok` models a normal return, `err` a
`return -1`, `fatal` an `exit(1)`.  Every constructor carries the state at
that point and the trace of transport events the operation emitted. -/
inductive Res (α : Type) where
  | ok (a : α) (s : St) (t : List Event)
  | err (s : St) (t : List Event)
  | fatal (s : St) (t : List Event)
deriving DecidableEq, Repr

def Res.st {α : Type} : Res α → St
  | .ok _ s _ => s
  | .err s _ => s
  | .fatal s _ => s

def Res.tr {α : Type} : Res α → List Event
  | .ok _ _ t => t
  | .err _ t => t
  | .fatal _ t => t

def Res.isOk {α : Type} : Res α → Bool
  | .ok _ _ _ => true
  | _ => false

/-- Prepend already-emitted events to a result's trace. -/
def Res.addTr {α : Type} (t : List Event) : Res α → Res α
  | .ok a s t2 => .ok a s (t ++ t2)
  | .err s t2 => .err s (t ++ t2)
  | .fatal s t2 => .fatal s (t ++ t2)

/-- Sequencing that stops on `err` and `fatal`: models C code that checks
the return value and returns `-1` on failure. -/
def Res.bind {α β : Type} (r : Res α) (k : α → St → Res β) : Res β :=
  match r with
  | .ok a s t => (k a s).addTr t
  | .err s t => .err s t
  | .fatal s t => .fatal s t

/-- Sequencing that continues after `err`: models C code that ignores the
return value of the call (as `fill_page_buf` does with
`picoboot_buffered_send`).  `fatal` (`exit(1)`) still stops everything. -/
def Res.bindAny {α β : Type} (r : Res α) (k : St → Res β) : Res β :=
  match r with
  | .ok _ s t => (k s).addTr t
  | .err s t => (k s).addTr t
  | .fatal s t => .fatal s t

/-- `picoboot_send_frame`: checksum the frame and write its 4 bytes. -/
def picoboot_send_frame (f : Frame) (s : St) : Res Unit :=
  .ok () s [Event.send (serializeFrame f)]

/-- `picoboot_wait_ack`: read one byte; a failed read returns `-1`, a
nonzero byte is a protocol error and calls `exit(1)`, a zero byte is ok. -/
def picoboot_wait_ack (acks : Nat → Option Nat) (s : St) : Res Unit :=
  let s2 : St := { s with ackIdx := s.ackIdx + 1 }
  match acks s.ackIdx with
  | none => .err s2 [Event.recv none]
  | some v =>
    if v = 0 then .ok () s2 [Event.recv (some v)]
    else .fatal s2 [Event.recv (some v)]

/-- The ack-draining loop of `picoboot_buffered_send`:
`for (ack_count = MAX_FRAMES; ack_count--;) if (picoboot_wait_ack(fd) != 0) return -1;` -/
def drainAcks (acks : Nat → Option Nat) : Nat → St → Res Unit
  | 0, s => .ok () s []
  | n + 1, s => (picoboot_wait_ack acks s).bind fun _ s2 => drainAcks acks n s2

/-- `picoboot_buffered_send`: append the checksummed frame to the static
buffer; when the buffer holds `MAX_FRAMES` frames, send them as one
contiguous write, reset the buffer, and drain `MAX_FRAMES` acks. -/
def picoboot_buffered_send (acks : Nat → Option Nat) (f : Frame) (s : St) :
    Res Unit :=
  let pend2 := s.pend ++ [f]
  if pend2.length = MAX_FRAMES then
    (drainAcks acks MAX_FRAMES { s with pend := [] }).addTr
      [Event.send (pend2.flatMap serializeFrame)]
  else
    .ok () { s with pend := pend2 } []

/-- The loop body of `fill_page_buf`, with the iteration count made explicit:
the C loop `for (cur_addr = page_addr; cur_addr < page_addr + page_size;
cur_addr += 2)` runs `(page_size + 1) / 2` times.  Note the source ignores
the return value of both `picoboot_buffered_send` calls, hence `bindAny`. -/
def fillLoop (acks : Nat → Option Nat) : Nat → Nat → St → Res Unit
  | 0, _, s => .ok () s []
  | n + 1, cur, s =>
    (picoboot_buffered_send acks
        ⟨s.buf.getD cur 0, s.buf.getD (cur + 1) 0, 0⟩ s).bindAny fun s2 =>
    (picoboot_buffered_send acks
        ⟨cur &&& 0xff, (cur &&& 0xff00) >>> 8, 0x01⟩ s2).bindAny fun s3 =>
    fillLoop acks n (cur + 2) s3

/-- `fill_page_buf` from picoboot.c (nested in `picoboot_paged_write`). -/
def fill_page_buf (acks : Nat → Option Nat) (page_size page_addr : Nat)
    (s : St) : Res Unit :=
  fillLoop acks ((page_size + 1) / 2) page_addr s

/-- `erase_page`: synchronous erase-page command (0x03) plus one ack. -/
def erase_page (acks : Nat → Option Nat) (page_addr : Nat) (s : St) :
    Res Unit :=
  (picoboot_send_frame
      ⟨page_addr &&& 0xff, (page_addr &&& 0xff00) >>> 8, 0x03⟩ s).bind
    fun _ s2 => picoboot_wait_ack acks s2

/-- `write_page`: synchronous write-page command (0x05) plus one ack. -/
def write_page (acks : Nat → Option Nat) (page_addr : Nat) (s : St) :
    Res Unit :=
  (picoboot_send_frame
      ⟨page_addr &&& 0xff, (page_addr &&& 0xff00) >>> 8, 0x05⟩ s).bind
    fun _ s2 => picoboot_wait_ack acks s2

/-- 32-bit unsigned subtraction, for the C expression
`vrst_vec_addr - page_size` where `vrst_vec_addr` promotes to `int` and
`page_size` is `unsigned int` (result computed modulo 2^32). -/
def usub32 (a b : Nat) : Nat :=
  (a + 4294967296 - b % 4294967296) % 4294967296

/-- The 16-bit word formed by the first two image bytes (the application's
reset vector), read little-endian as in `picoboot_paged_write`. -/
def appstartOf (buf : List Nat) : Nat :=
  buf.getD 0 0 ||| buf.getD 1 0 <<< 8

/-- The relocated reset-vector instruction:
`0xc000 | (((appstart & 0x0FFF) + BOOTLOADER_SIZE/2) & 0x0FFF)`. -/
def relocAppstart (appstart : Nat) : Nat :=
  0xc000 ||| (((appstart &&& 0x0FFF) + BOOTLOADER_SIZE / 2) &&& 0x0FFF)

/-- The image after the address-0 mutation in `picoboot_paged_write`:
bytes 0/1 become the fixed `rjmp BootStart` (0xdf, 0xcf) and the two bytes
at `vrst` hold the relocated vector, low byte first. -/
def relocatedBuf (vrst : Nat) (buf : List Nat) : List Nat :=
  let appstart2 := relocAppstart (appstartOf buf)
  (((buf.set 0 0xdf).set 1 0xcf).set vrst (appstart2 &&& 0xFF)).set
    (vrst + 1) (appstart2 >>> 8)

/-- The fill / erase / write sequence `picoboot_paged_write` performs for one
page, with `return -1` on a failing step. -/
def flashPage (acks : Nat → Option Nat) (page_size page_addr : Nat)
    (s : St) : Res Unit :=
  (fill_page_buf acks page_size page_addr s).bind fun _ s2 =>
  (erase_page acks page_addr s2).bind fun _ s3 =>
  write_page acks page_addr s3

/-- `picoboot_paged_write` from picoboot.c.  `desc` is `m->desc`, `size` is
`m->size`, and the image lives in `s.buf`.  `vrst_vec_addr` is a `uint16_t`
in the source, hence the reduction modulo 65536. -/
def picoboot_paged_write (acks : Nat → Option Nat) (desc : String)
    (size page_size addr num_bytes : Nat) (s : St) : Res Nat :=
  let vrst_vec_addr := (size - BOOTLOADER_SIZE) % 65536
  if desc = "flash" then
    if addr ≥ vrst_vec_addr then .fatal s []
    else if addr > usub32 vrst_vec_addr page_size then .ok num_bytes s []
    else if addr = 0 then
      if appstartOf s.buf &&& 0xF000 ≠ 0xC000 then .fatal s []
      else
        let vrst_vec_page := (usub32 vrst_vec_addr page_size + 2) % 65536
        let s1 : St := { s with buf := relocatedBuf vrst_vec_addr s.buf }
        (flashPage acks page_size vrst_vec_page s1).bind fun _ s2 =>
        (flashPage acks page_size addr s2).bind fun _ s3 =>
        .ok num_bytes s3 []
    else
      (flashPage acks page_size addr s).bind fun _ s2 => .ok num_bytes s2 []
  else .err s []

/-- An ack source on which every read succeeds with the expected 0x00. -/
def goodAcks : Nat → Option Nat := fun _ => some 0

end Picoboot

namespace Picoboot

theorem Res.addTr_st {α : Type} (t : List Event) (r : Res α) :
    (r.addTr t).st = r.st := by
  cases r <;> rfl

theorem Res.addTr_tr {α : Type} (t : List Event) (r : Res α) :
    (r.addTr t).tr = t ++ r.tr := by
  cases r <;> rfl

theorem wait_ack_st (acks : Nat → Option Nat) (s : St) :
    (picoboot_wait_ack acks s).st = { s with ackIdx := s.ackIdx + 1 } := by
  unfold picoboot_wait_ack
  rcases acks s.ackIdx with _ | v
  · rfl
  · by_cases h : v = 0 <;> simp [h, Res.st]

theorem Res.bind_buf {α β : Type} (r : Res α) (k : α → St → Res β)
    (hk : ∀ a s, (k a s).st.buf = s.buf) :
    (r.bind k).st.buf = r.st.buf := by
  cases r with
  | ok a s t =>
    show ((k a s).addTr t).st.buf = s.buf
    rw [Res.addTr_st]; exact hk a s
  | err s t => rfl
  | fatal s t => rfl

theorem Res.bindAny_buf {α β : Type} (r : Res α) (k : St → Res β)
    (hk : ∀ s, (k s).st.buf = s.buf) :
    (r.bindAny k).st.buf = r.st.buf := by
  cases r with
  | ok a s t =>
    show ((k s).addTr t).st.buf = s.buf
    rw [Res.addTr_st]; exact hk s
  | err s t =>
    show ((k s).addTr t).st.buf = s.buf
    rw [Res.addTr_st]; exact hk s
  | fatal s t => rfl

theorem drainAcks_st (acks : Nat → Option Nat) :
    ∀ (n : Nat) (s : St), ∃ k, (drainAcks acks n s).st = { s with ackIdx := k } := by
  intro n
  induction n with
  | zero => intro s; exact ⟨s.ackIdx, rfl⟩
  | succ m ih =>
    intro s
    have hw := wait_ack_st acks s
    cases h : picoboot_wait_ack acks s with
    | ok a s2 t =>
      rw [h] at hw
      obtain ⟨k, hk⟩ := ih s2
      refine ⟨k, ?_⟩
      simp only [drainAcks, h, Res.bind, Res.addTr_st, hk]
      simp only [Res.st] at hw
      rw [hw]
    | err s2 t =>
      rw [h] at hw
      simp only [Res.st] at hw
      exact ⟨s.ackIdx + 1, by simp only [drainAcks, h, Res.bind, Res.st, hw]⟩
    | fatal s2 t =>
      rw [h] at hw
      simp only [Res.st] at hw
      exact ⟨s.ackIdx + 1, by simp only [drainAcks, h, Res.bind, Res.st, hw]⟩

theorem buffered_send_buf (acks : Nat → Option Nat) (f : Frame) (s : St) :
    (picoboot_buffered_send acks f s).st.buf = s.buf := by
  obtain ⟨k, hk⟩ := drainAcks_st acks MAX_FRAMES { s with pend := ([] : List Frame) }
  by_cases h : s.pend.length + 1 = MAX_FRAMES
  · simp [picoboot_buffered_send, h, Res.addTr_st, hk]
  · simp only [picoboot_buffered_send, List.length_append, List.length_cons,
      List.length_nil, Nat.zero_add, h, if_false, ite_false]
    rfl

theorem fillLoop_buf (acks : Nat → Option Nat) :
    ∀ (n cur : Nat) (s : St), (fillLoop acks n cur s).st.buf = s.buf := by
  intro n
  induction n with
  | zero => intro cur s; rfl
  | succ m ih =>
    intro cur s
    simp only [fillLoop]
    rw [Res.bindAny_buf, buffered_send_buf]
    intro s2
    rw [Res.bindAny_buf, buffered_send_buf]
    intro s3
    exact ih (cur + 2) s3

theorem erase_page_st (acks : Nat → Option Nat) (p : Nat) (s : St) :
    (erase_page acks p s).st = { s with ackIdx := s.ackIdx + 1 } := by
  unfold erase_page picoboot_send_frame
  simp only [Res.bind, Res.addTr_st, wait_ack_st]

theorem write_page_st (acks : Nat → Option Nat) (p : Nat) (s : St) :
    (write_page acks p s).st = { s with ackIdx := s.ackIdx + 1 } := by
  unfold write_page picoboot_send_frame
  simp only [Res.bind, Res.addTr_st, wait_ack_st]

theorem flashPage_buf (acks : Nat → Option Nat) (ps pa : Nat) (s : St) :
    (flashPage acks ps pa s).st.buf = s.buf := by
  unfold flashPage
  rw [Res.bind_buf]
  · exact fillLoop_buf acks _ pa s
  · intro a s2
    rw [Res.bind_buf]
    · rw [erase_page_st]
    · intro b s3
      rw [write_page_st]

theorem usub32_of_le {a b : Nat} (h1 : b ≤ a) (h2 : a < 4294967296) :
    usub32 a b = a - b := by
  unfold usub32; omega

theorem getD_set_self (l : List Nat) (i a : Nat) (h : i < l.length) :
    (l.set i a).getD i 0 = a := by
  rw [List.getD_eq_getElem _ _ (by simpa using h)]
  simp [List.getElem_set_self]

theorem getD_set_ne (l : List Nat) {i j : Nat} (a : Nat) (h : i ≠ j) :
    (l.set i a).getD j 0 = l.getD j 0 := by
  rcases Nat.lt_or_ge j l.length with hj | hj
  · rw [List.getD_eq_getElem _ _ (by simpa using hj), List.getD_eq_getElem _ _ hj]
    exact List.getElem_set_ne h _
  · rw [List.getD_eq_default _ _ (by simpa using hj), List.getD_eq_default _ _ hj]

/-- Claim C1: a paged-write call whose start address lies at or beyond
`size − 66` (the reserved bootloader region) terminates the session
fatally, emitting no transport events, regardless of page size, byte count,
image contents, or the pipeline's prior state. -/
theorem C1_bootloader_write_fatal (acks : Nat → Option Nat)
    (size ps addr nb : Nat) (s : St)
    (h66 : 66 ≤ size) (hsz : size - 66 < 65536) (haddr : size - 66 ≤ addr) :
    picoboot_paged_write acks "flash" size ps addr nb s = Res.fatal s [] := by
  have hv : (size - BOOTLOADER_SIZE) % 65536 = size - 66 := by
    simp only [BOOTLOADER_SIZE]; omega
  simp [picoboot_paged_write, hv, haddr]

theorem C1_witness :
    66 ≤ 8192 ∧ 8192 - 66 < 65536 ∧ 8192 - 66 ≤ 8190 ∧
    picoboot_paged_write goodAcks "flash" 8192 64 8190 64 ⟨[], [], 0⟩ =
      Res.fatal ⟨[], [], 0⟩ [] :=
  ⟨by decide, by decide, by decide,
    C1_bootloader_write_fatal goodAcks 8192 64 8190 64 ⟨[], [], 0⟩
      (by decide) (by decide) (by decide)⟩

/-- Claim C4: a paged-write call whose start address lies strictly between
`size − 66 − page_size` and `size − 66` sends nothing on the transport and
returns `num_bytes` (success with the full byte count). -/
theorem C4_adjacent_page_deferred (acks : Nat → Option Nat)
    (size ps addr nb : Nat) (s : St)
    (h66 : 66 ≤ size) (hsz : size - 66 < 65536) (hps : ps ≤ size - 66)
    (hlo : size - 66 - ps < addr) (hhi : addr < size - 66) :
    picoboot_paged_write acks "flash" size ps addr nb s = Res.ok nb s [] := by
  have hv : (size - BOOTLOADER_SIZE) % 65536 = size - 66 := by
    simp only [BOOTLOADER_SIZE]; omega
  have hu : usub32 (size - 66) ps = size - 66 - ps :=
    usub32_of_le hps (by omega)
  have hge : ¬ addr ≥ size - 66 := by omega
  simp [picoboot_paged_write, hv, hu, hge, hlo]

theorem C4_witness :
    66 ≤ 8192 ∧ 8192 - 66 < 65536 ∧ 64 ≤ 8192 - 66 ∧
    8192 - 66 - 64 < 8100 ∧ 8100 < 8192 - 66 ∧
    picoboot_paged_write goodAcks "flash" 8192 64 8100 64 ⟨[], [], 0⟩ =
      Res.ok 64 ⟨[], [], 0⟩ [] :=
  ⟨by decide, by decide, by decide, by decide, by decide,
    C4_adjacent_page_deferred goodAcks 8192 64 8100 64 ⟨[], [], 0⟩
      (by decide) (by decide) (by decide) (by decide) (by decide)⟩

/-- Claim C5: a paged-write call at address 0 on an image whose first two
bytes do not encode a relative jump (top 4 bits of the little-endian word
are not 0xC) terminates the session fatally with no transport events. -/
theorem C5_missing_reset_vector_fatal (acks : Nat → Option Nat)
    (size ps nb : Nat) (s : St)
    (h66 : 66 < size) (hsz : size - 66 < 65536)
    (hjump : appstartOf s.buf &&& 0xF000 ≠ 0xC000) :
    picoboot_paged_write acks "flash" size ps 0 nb s = Res.fatal s [] := by
  have hv : (size - BOOTLOADER_SIZE) % 65536 = size - 66 := by
    simp only [BOOTLOADER_SIZE]; omega
  have hge : ¬ (0 : Nat) ≥ size - 66 := by omega
  simp [picoboot_paged_write, hv, hge, hjump]

theorem C5_witness :
    66 < 8192 ∧ 8192 - 66 < 65536 ∧
    appstartOf (St.mk [] [] 0).buf &&& 0xF000 ≠ 0xC000 ∧
    picoboot_paged_write goodAcks "flash" 8192 64 0 64 ⟨[], [], 0⟩ =
      Res.fatal ⟨[], [], 0⟩ [] :=
  ⟨by decide, by decide, by decide,
    C5_missing_reset_vector_fatal goodAcks 8192 64 64 ⟨[], [], 0⟩
      (by decide) (by decide) (by decide)⟩

/-- Claim C9: a paged-write call for any memory class other than "flash"
returns an ordinary failure without any transport activity. -/
theorem C9_non_flash_rejected (acks : Nat → Option Nat) (desc : String)
    (size ps addr nb : Nat) (s : St) (hdesc : desc ≠ "flash") :
    picoboot_paged_write acks desc size ps addr nb s = Res.err s [] := by
  simp [picoboot_paged_write, hdesc]

theorem C9_witness :
    "eeprom" ≠ "flash" ∧
    picoboot_paged_write goodAcks "eeprom" 8192 64 0 64 ⟨[], [], 0⟩ =
      Res.err ⟨[], [], 0⟩ [] :=
  ⟨by decide,
    C9_non_flash_rejected goodAcks "eeprom" 8192 64 0 64 ⟨[], [], 0⟩ (by decide)⟩

end Picoboot

namespace Picoboot

/-- An ack source whose very first read fails (timeout) and every later
read succeeds with 0x00. -/
def firstAckTimesOut : Nat → Option Nat :=
  fun i => if i = 0 then none else some 0

/-- A concrete 256-byte all-zero flash image with an idle pipeline. -/
def stAllZero : St := ⟨List.replicate 256 0, [], 0⟩

/-- Claim C6 (code bug evidence): with `size = 256`, `page_size = 64` and a
write at address 64, the first acknowledgement read of the first pipeline
flush times out, yet the call still emits the erase-page (0x03) and
write-page (0x05) frames for the page and returns success.  The failure is
visible in the trace (a `recv none` event), but `fill_page_buf` discards
`picoboot_buffered_send`'s −1 result, so the erase and commit steps run
anyway. -/
theorem C6_ack_failure_not_propagated :
    (picoboot_paged_write firstAckTimesOut "flash" 256 64 64 64
        stAllZero).isOk = true
    ∧ Event.recv none ∈
        (picoboot_paged_write firstAckTimesOut "flash" 256 64 64 64
          stAllZero).tr
    ∧ Event.send (serializeFrame ⟨64, 0, 0x03⟩) ∈
        (picoboot_paged_write firstAckTimesOut "flash" 256 64 64 64
          stAllZero).tr
    ∧ Event.send (serializeFrame ⟨64, 0, 0x05⟩) ∈
        (picoboot_paged_write firstAckTimesOut "flash" 256 64 64 64
          stAllZero).tr := by
  decide

end Picoboot

namespace Picoboot

/-- Sequencing a list of frames through `picoboot_buffered_send`, ignoring
the per-call return value as `fill_page_buf` does. -/
def bsendSeq (acks : Nat → Option Nat) : List Frame → St → Res Unit
  | [], s => .ok () s []
  | f :: fs, s =>
    (picoboot_buffered_send acks f s).bindAny fun s2 => bsendSeq acks fs s2

/-- Whether an event is a transport write (a flush or synchronous send). -/
def isSendEv : Event → Bool
  | .send _ => true
  | .recv _ => false

theorem wait_ack_good (acks : Nat → Option Nat) (s : St)
    (h : ∀ i, acks i = some 0) :
    picoboot_wait_ack acks s =
      .ok () { s with ackIdx := s.ackIdx + 1 } [Event.recv (some 0)] := by
  unfold picoboot_wait_ack
  rw [h]
  rfl

theorem drainAcks_good (acks : Nat → Option Nat) (h : ∀ i, acks i = some 0) :
    ∀ (n : Nat) (s : St),
      drainAcks acks n s =
        .ok () { s with ackIdx := s.ackIdx + n }
          (List.replicate n (Event.recv (some 0))) := by
  intro n
  induction n with
  | zero => intro s; rfl
  | succ m ih =>
    intro s
    have hn : s.ackIdx + 1 + m = s.ackIdx + (m + 1) := by omega
    simp only [drainAcks, wait_ack_good acks s h, Res.bind, ih, Res.addTr,
      List.replicate_succ, List.singleton_append, hn]

/-- Behaviour of one `picoboot_buffered_send` call when every ack read
succeeds, for any window holding fewer than `MAX_FRAMES` frames: the
frames up to the seventh are only buffered, and the eighth frame triggers
the single flush — one contiguous write of all eight serialized frames
followed by eight ack reads — leaving the window empty; the pending window
never exceeds `MAX_FRAMES`. -/
def windowProp (acks : Nat → Option Nat) (f : Frame) (s : St) : Prop :=
  (picoboot_buffered_send acks f s).st.pend.length < MAX_FRAMES
  ∧ (s.pend.length + 1 < MAX_FRAMES →
      picoboot_buffered_send acks f s =
        .ok () { s with pend := s.pend ++ [f] } [])
  ∧ (s.pend.length + 1 = MAX_FRAMES →
      picoboot_buffered_send acks f s =
        .ok () { s with pend := [], ackIdx := s.ackIdx + MAX_FRAMES }
          (Event.send ((s.pend ++ [f]).flatMap serializeFrame) ::
            List.replicate MAX_FRAMES (Event.recv (some 0))))

/-- Claim C7 (amended): the flush of the 8-frame ack window happens on the
call that buffers the 8th frame (not the 9th); until then a call only
appends to the window with no transport activity; the flush is one
contiguous write of the 8 frames in send order followed by 8 ack reads;
and the pending window stays below 8 frames after every call. -/
theorem C7_window_flush_on_eighth (acks : Nat → Option Nat) (f : Frame)
    (s : St) (hg : ∀ i, acks i = some 0) (hlt : s.pend.length < MAX_FRAMES) :
    windowProp acks f s := by
  unfold windowProp
  by_cases h : s.pend.length + 1 = MAX_FRAMES
  · refine ⟨?_, ?_, ?_⟩
    · simp [picoboot_buffered_send, h, drainAcks_good acks hg, Res.addTr,
        Res.st, MAX_FRAMES]
    · intro hcontra; omega
    · intro _
      simp [picoboot_buffered_send, h, drainAcks_good acks hg, Res.addTr]
  · refine ⟨?_, ?_, ?_⟩
    · simp only [picoboot_buffered_send, List.length_append, List.length_cons,
        List.length_nil, Nat.zero_add, h, ite_false]
      simp only [Res.st, List.length_append, List.length_cons, List.length_nil]
      simp only [MAX_FRAMES] at hlt h ⊢
      omega
    · intro _
      simp only [picoboot_buffered_send, List.length_append, List.length_cons,
        List.length_nil, Nat.zero_add, h, ite_false]
    · intro hcontra; exact absurd hcontra h

theorem C7_witness :
    (∀ i, goodAcks i = some 0) ∧
    (St.mk [] (List.replicate 7 ⟨1, 2, 3⟩) 5).pend.length < MAX_FRAMES ∧
    windowProp goodAcks ⟨9, 9, 9⟩ (St.mk [] (List.replicate 7 ⟨1, 2, 3⟩) 5) :=
  ⟨fun _ => rfl, by decide,
    C7_window_flush_on_eighth goodAcks ⟨9, 9, 9⟩
      (St.mk [] (List.replicate 7 ⟨1, 2, 3⟩) 5) (fun _ => rfl) (by decide)⟩

/-- Claim C7 counterexample: starting from an empty window, the flush
happens during the 8th `buffered_send` call (the trace after 8 calls
already contains a transport write), and the 9th call performs no transport
operation at all — so the (N+1)th frame does not trigger the flush of the
first N, contrary to the claim as stated. -/
theorem C7_counterexample :
    ((bsendSeq goodAcks (List.replicate 8 ⟨0, 0, 0⟩) ⟨[], [], 0⟩).tr.any
        isSendEv = true)
    ∧ (picoboot_buffered_send goodAcks ⟨0, 0, 0⟩
        (bsendSeq goodAcks (List.replicate 8 ⟨0, 0, 0⟩) ⟨[], [], 0⟩).st).tr
        = [] := by
  decide

end Picoboot

namespace Picoboot

/-- The frame sequence the fill step emits, described per 16-bit word: for
the word at address `cur`, a data-stage frame (command 0x00) with the two
image bytes, then a fill-buffer frame (command 0x01) whose 16-bit payload is
the word's address, low byte first. -/
def framesForSpec (buf : List Nat) : Nat → Nat → List Frame
  | 0, _ => []
  | n + 1, cur =>
    ⟨buf.getD cur 0, buf.getD (cur + 1) 0, 0⟩ ::
    ⟨cur &&& 0xff, (cur &&& 0xff00) >>> 8, 0x01⟩ ::
    framesForSpec buf n (cur + 2)

/-- The full frame sequence of a page fill, one word pair per loop
iteration of `fill_page_buf`. -/
def fillFramesSpec (buf : List Nat) (page_size page_addr : Nat) : List Frame :=
  framesForSpec buf ((page_size + 1) / 2) page_addr

theorem Res.bindAny_congr {α β : Type} (r : Res α) (k1 k2 : St → Res β)
    (h : ∀ s, s.buf = r.st.buf → k1 s = k2 s) :
    r.bindAny k1 = r.bindAny k2 := by
  cases r with
  | ok a s t =>
    show (k1 s).addTr t = (k2 s).addTr t
    rw [h s rfl]
  | err s t =>
    show (k1 s).addTr t = (k2 s).addTr t
    rw [h s rfl]
  | fatal s t => rfl

theorem fillLoop_eq_bsendSeq (acks : Nat → Option Nat) :
    ∀ (n cur : Nat) (s : St) (B : List Nat), s.buf = B →
      fillLoop acks n cur s = bsendSeq acks (framesForSpec B n cur) s := by
  intro n
  induction n with
  | zero => intro cur s B hB; rfl
  | succ m ih =>
    intro cur s B hB
    simp only [fillLoop, framesForSpec, bsendSeq, hB]
    apply Res.bindAny_congr
    intro s2 hs2
    have hb2 : s2.buf = B := by
      rw [hs2, buffered_send_buf, hB]
    apply Res.bindAny_congr
    intro s3 hs3
    have hb3 : s3.buf = B := by
      rw [hs3, buffered_send_buf, hb2]
    exact ih (cur + 2) s3 B hb3

/-- Claim C8 (amended): the fill step iterates the page's bytes two at a
time and, for each 16-bit word, pushes through the ack pipeline a
data-stage frame (command 0x00) carrying the two data bytes followed by a
fill-buffer frame (command 0x01) carrying the word's 16-bit flash address
(page base plus offset within the page, low byte first) — the payload is
the absolute address, not the bare offset within the page. -/
theorem C8_fill_frame_sequence (acks : Nat → Option Nat)
    (page_size page_addr : Nat) (s : St) :
    fill_page_buf acks page_size page_addr s =
      bsendSeq acks (fillFramesSpec s.buf page_size page_addr) s :=
  fillLoop_eq_bsendSeq acks ((page_size + 1) / 2) page_addr s s.buf rfl

/-- Claim C8 counterexample: filling the page at base address 64 with
`page_size = 4` leaves four frames in the pipeline window whose fill-buffer
payloads are 64 and 66 — the words' absolute flash addresses — not 0 and 2,
the offsets within the page that the claim as stated predicts. -/
theorem C8_counterexample :
    (fill_page_buf goodAcks 4 64 ⟨List.replicate 128 0, [], 0⟩).st.pend =
      [⟨0, 0, 0⟩, ⟨64, 0, 0x01⟩, ⟨0, 0, 0⟩, ⟨66, 0, 0x01⟩]
    ∧ (fill_page_buf goodAcks 4 64 ⟨List.replicate 128 0, [], 0⟩).st.pend ≠
      [⟨0, 0, 0⟩, ⟨0, 0, 0x01⟩, ⟨0, 0, 0⟩, ⟨2, 0, 0x01⟩] := by
  decide

end Picoboot

namespace Picoboot

theorem paged_write_buf_reloc (acks : Nat → Option Nat) (size ps nb : Nat)
    (s : St) (h66 : 66 < size) (hsz : size - 66 < 65536)
    (hjump : appstartOf s.buf &&& 0xF000 = 0xC000) :
    (picoboot_paged_write acks "flash" size ps 0 nb s).st.buf =
      relocatedBuf (size - 66) s.buf := by
  have hv : (size - BOOTLOADER_SIZE) % 65536 = size - 66 := by
    simp only [BOOTLOADER_SIZE]; omega
  have hge : ¬ (0 : Nat) ≥ size - 66 := by omega
  have hnjump : ¬ appstartOf s.buf &&& 0xF000 ≠ 0xC000 := by
    simp [hjump]
  simp only [picoboot_paged_write, hv, ge_iff_le, Nat.le_zero, gt_iff_lt,
    Nat.not_lt_zero, if_false, ite_false, hnjump, ite_true, if_true,
    hge]
  rw [Res.bind_buf]
  · exact flashPage_buf acks ps _ _
  · intro a s2
    rw [Res.bind_buf]
    · exact flashPage_buf acks ps 0 s2
    · intro b s3
      rfl

theorem paged_write_buf_other (acks : Nat → Option Nat) (desc : String)
    (size ps addr nb : Nat) (s : St) (haddr : addr ≠ 0) :
    (picoboot_paged_write acks desc size ps addr nb s).st.buf = s.buf := by
  by_cases hd : desc = "flash"
  · by_cases h1 : addr ≥ (size - BOOTLOADER_SIZE) % 65536
    · simp [picoboot_paged_write, hd, h1, Res.st]
    · by_cases h2 : addr > usub32 ((size - BOOTLOADER_SIZE) % 65536) ps
      · simp [picoboot_paged_write, hd, h1, h2, Res.st]
      · simp only [picoboot_paged_write, hd, h1, h2, haddr, if_true, ite_true,
          if_false, ite_false]
        rw [Res.bind_buf]
        · exact flashPage_buf acks ps addr s
        · intro a s2
          rfl
  · simp [picoboot_paged_write, hd, Res.st]

theorem paged_write_buf_zero_invalid (acks : Nat → Option Nat)
    (size ps nb : Nat) (s : St)
    (hjump : appstartOf s.buf &&& 0xF000 ≠ 0xC000) :
    (picoboot_paged_write acks "flash" size ps 0 nb s).st.buf = s.buf := by
  by_cases h1 : (0 : Nat) ≥ (size - BOOTLOADER_SIZE) % 65536
  · simp [picoboot_paged_write, h1, Res.st]
  · simp [picoboot_paged_write, h1, hjump, Res.st]

end Picoboot

namespace Picoboot

theorem relocAppstart_eq_mod (app : Nat) :
    relocAppstart app = 0xC000 ||| ((app &&& 0x0FFF) + 33) % 4096 := by
  unfold relocAppstart BOOTLOADER_SIZE
  rw [Nat.and_pow_two_sub_one_eq_mod ((app &&& 0x0FFF) + 66 / 2) 12]

theorem and_ff_eq_mod (x : Nat) : x &&& 0xFF = x % 256 :=
  Nat.and_pow_two_sub_one_eq_mod x 8

theorem shiftr8_eq_div (x : Nat) : x >>> 8 = x / 256 := by
  simp [Nat.shiftRight_eq_div_pow]

theorem relocatedBuf_getD (vrst : Nat) (buf : List Nat) (h2 : 2 ≤ vrst)
    (hlen : vrst + 1 < buf.length) :
    (relocatedBuf vrst buf).getD 0 0 = 0xdf ∧
    (relocatedBuf vrst buf).getD 1 0 = 0xcf ∧
    (relocatedBuf vrst buf).getD vrst 0 =
      relocAppstart (appstartOf buf) &&& 0xFF ∧
    (relocatedBuf vrst buf).getD (vrst + 1) 0 =
      relocAppstart (appstartOf buf) >>> 8 ∧
    ∀ i, i ≠ 0 → i ≠ 1 → i ≠ vrst → i ≠ vrst + 1 →
      (relocatedBuf vrst buf).getD i 0 = buf.getD i 0 := by
  unfold relocatedBuf
  refine ⟨?_, ?_, ?_, ?_, ?_⟩
  · rw [getD_set_ne _ _ (show vrst + 1 ≠ 0 by omega),
      getD_set_ne _ _ (show vrst ≠ 0 by omega),
      getD_set_ne _ _ (show (1 : Nat) ≠ 0 by omega),
      getD_set_self _ _ _ (by omega)]
  · rw [getD_set_ne _ _ (show vrst + 1 ≠ 1 by omega),
      getD_set_ne _ _ (show vrst ≠ 1 by omega),
      getD_set_self _ _ _ (by simp only [List.length_set]; omega)]
  · rw [getD_set_ne _ _ (show vrst + 1 ≠ vrst by omega),
      getD_set_self _ _ _ (by simp only [List.length_set]; omega)]
  · rw [getD_set_self _ _ _ (by simp only [List.length_set]; omega)]
  · intro i hi0 hi1 hiv hiv1
    rw [getD_set_ne _ _ (Ne.symm hiv1), getD_set_ne _ _ (Ne.symm hiv),
      getD_set_ne _ _ (Ne.symm hi1), getD_set_ne _ _ (Ne.symm hi0)]

/-- Property stated by claim C2: after a page-zero write on an image whose
first word is a relative jump with 12-bit target `T`, the image starts with
the fixed bootloader-entry jump `0xdf 0xcf`, and the two bytes at
`size − 66` hold `0xC000 OR ((T + 33) mod 4096)`, low byte first. -/
def C2prop (acks : Nat → Option Nat) (size ps nb : Nat) (s : St) : Prop :=
  let T := appstartOf s.buf &&& 0x0FFF
  let v := 0xC000 ||| ((T + 33) % 4096)
  let r := picoboot_paged_write acks "flash" size ps 0 nb s
  r.st.buf.getD 0 0 = 0xdf ∧ r.st.buf.getD 1 0 = 0xcf ∧
  r.st.buf.getD (size - 66) 0 = v % 256 ∧
  r.st.buf.getD (size - 65) 0 = v / 256

/-- Claim C2: a paged write at address 0 on an image whose first two bytes
encode a relative jump (top nibble 0xC, 12-bit target `T`) rewrites the
image's first two bytes to the fixed bootloader-entry jump `0xdf 0xcf` and
stores `0xC000 OR ((T + 33) mod 4096)` little-endian at `size − 66`. -/
theorem C2_page_zero_relocation (acks : Nat → Option Nat)
    (size ps nb : Nat) (s : St)
    (h68 : 68 ≤ size) (hsz : size - 66 < 65536) (hlen : s.buf.length = size)
    (hjump : appstartOf s.buf &&& 0xF000 = 0xC000) :
    C2prop acks size ps nb s := by
  have hbuf := paged_write_buf_reloc acks size ps nb s (by omega) hsz hjump
  have h65 : size - 65 = (size - 66) + 1 := by omega
  obtain ⟨g0, g1, gv, gv1, _⟩ :=
    relocatedBuf_getD (size - 66) s.buf (by omega) (by omega)
  unfold C2prop
  refine ⟨?_, ?_, ?_, ?_⟩
  · rw [hbuf]; exact g0
  · rw [hbuf]; exact g1
  · rw [hbuf, gv, relocAppstart_eq_mod, and_ff_eq_mod]
  · rw [hbuf, h65, gv1, relocAppstart_eq_mod, shiftr8_eq_div]

def bufW : List Nat := ((List.replicate 68 0).set 0 0x34).set 1 0xC5

theorem C2_witness :
    68 ≤ 68 ∧ 68 - 66 < 65536 ∧ (St.mk bufW [] 0).buf.length = 68 ∧
    appstartOf (St.mk bufW [] 0).buf &&& 0xF000 = 0xC000 ∧
    C2prop goodAcks 68 2 2 (St.mk bufW [] 0) :=
  ⟨by decide, by decide, by decide, by decide,
    C2_page_zero_relocation goodAcks 68 2 2 (St.mk bufW [] 0)
      (by decide) (by decide) (by decide) (by decide)⟩

/-- Property stated by claim C10: a paged write in the allowed region with
nonzero address never touches the image; a page-zero write with a valid
reset vector mutates exactly the four bytes at offsets 0, 1, `size − 66`,
`size − 65`, and every other byte of the image is unchanged by every call. -/
def frameEffectProp (acks : Nat → Option Nat) (size ps addr nb : Nat)
    (s : St) : Prop :=
  let r := picoboot_paged_write acks "flash" size ps addr nb s
  (addr ≠ 0 → r.st.buf = s.buf)
  ∧ (∀ i, i ≠ 0 → i ≠ 1 → i ≠ size - 66 → i ≠ size - 65 →
      r.st.buf.getD i 0 = s.buf.getD i 0)
  ∧ (addr = 0 → appstartOf s.buf &&& 0xF000 = 0xC000 →
      r.st.buf.getD 0 0 = 0xdf ∧ r.st.buf.getD 1 0 = 0xcf ∧
      r.st.buf.getD (size - 66) 0 =
        relocAppstart (appstartOf s.buf) &&& 0xFF ∧
      r.st.buf.getD (size - 65) 0 =
        relocAppstart (appstartOf s.buf) >>> 8)

/-- Claim C10: flash paged writes with nonzero start address only read the
image; only the address-0 call mutates it, and it mutates exactly the bytes
at 0, 1, `size − 66` and `size − 65` (fixed entry jump and relocated
vector); all other image bytes are unchanged by every call. -/
theorem C10_image_mutation_footprint (acks : Nat → Option Nat)
    (size ps addr nb : Nat) (s : St)
    (h68 : 68 ≤ size) (hsz : size - 66 < 65536) (hlen : s.buf.length = size) :
    frameEffectProp acks size ps addr nb s := by
  have h65 : size - 65 = (size - 66) + 1 := by omega
  refine ⟨?_, ?_, ?_⟩
  · intro h
    exact paged_write_buf_other acks "flash" size ps addr nb s h
  · intro i hi0 hi1 hiv hiv1
    by_cases h0 : addr = 0
    · subst h0
      by_cases hj : appstartOf s.buf &&& 0xF000 = 0xC000
      · rw [paged_write_buf_reloc acks size ps nb s (by omega) hsz hj]
        exact (relocatedBuf_getD (size - 66) s.buf (by omega)
          (by omega)).2.2.2.2 i hi0 hi1 hiv (by omega)
      · rw [paged_write_buf_zero_invalid acks size ps nb s hj]
    · rw [paged_write_buf_other acks "flash" size ps addr nb s h0]
  · intro h0 hj
    subst h0
    have hbuf := paged_write_buf_reloc acks size ps nb s (by omega) hsz hj
    obtain ⟨g0, g1, gv, gv1, _⟩ :=
      relocatedBuf_getD (size - 66) s.buf (by omega) (by omega)
    exact ⟨by rw [hbuf]; exact g0, by rw [hbuf]; exact g1,
      by rw [hbuf]; exact gv, by rw [hbuf, h65]; exact gv1⟩

theorem C10_witness :
    68 ≤ 68 ∧ 68 - 66 < 65536 ∧ (St.mk bufW [] 0).buf.length = 68 ∧
    frameEffectProp goodAcks 68 2 0 2 (St.mk bufW [] 0) :=
  ⟨by decide, by decide, by decide,
    C10_image_mutation_footprint goodAcks 68 2 0 2 (St.mk bufW [] 0)
      (by decide) (by decide) (by decide)⟩

end Picoboot

namespace Picoboot

theorem erase_page_good (acks : Nat → Option Nat) (p : Nat) (s : St)
    (h : ∀ i, acks i = some 0) :
    erase_page acks p s =
      .ok () { s with ackIdx := s.ackIdx + 1 }
        [Event.send (serializeFrame ⟨p &&& 0xff, (p &&& 0xff00) >>> 8, 0x03⟩),
          Event.recv (some 0)] := by
  show (picoboot_wait_ack acks s).addTr
      [Event.send (serializeFrame ⟨p &&& 0xff, (p &&& 0xff00) >>> 8, 0x03⟩)] = _
  rw [wait_ack_good acks s h]
  rfl

theorem write_page_good (acks : Nat → Option Nat) (p : Nat) (s : St)
    (h : ∀ i, acks i = some 0) :
    write_page acks p s =
      .ok () { s with ackIdx := s.ackIdx + 1 }
        [Event.send (serializeFrame ⟨p &&& 0xff, (p &&& 0xff00) >>> 8, 0x05⟩),
          Event.recv (some 0)] := by
  show (picoboot_wait_ack acks s).addTr
      [Event.send (serializeFrame ⟨p &&& 0xff, (p &&& 0xff00) >>> 8, 0x05⟩)] = _
  rw [wait_ack_good acks s h]
  rfl

theorem buffered_send_good_ok (acks : Nat → Option Nat) (f : Frame) (s : St)
    (h : ∀ i, acks i = some 0) :
    ∃ s2 t, picoboot_buffered_send acks f s = .ok () s2 t := by
  by_cases hl : s.pend.length + 1 = MAX_FRAMES
  · refine ⟨{ s with pend := [], ackIdx := s.ackIdx + MAX_FRAMES },
      Event.send ((s.pend ++ [f]).flatMap serializeFrame) ::
        List.replicate MAX_FRAMES (Event.recv (some 0)), ?_⟩
    simp [picoboot_buffered_send, hl, drainAcks_good acks h, Res.addTr]
  · refine ⟨{ s with pend := s.pend ++ [f] }, [], ?_⟩
    simp only [picoboot_buffered_send, List.length_append, List.length_cons,
      List.length_nil, Nat.zero_add, hl, ite_false]

theorem fillLoop_good_ok (acks : Nat → Option Nat)
    (h : ∀ i, acks i = some 0) :
    ∀ (n cur : Nat) (s : St), ∃ s2 t, fillLoop acks n cur s = .ok () s2 t := by
  intro n
  induction n with
  | zero => intro cur s; exact ⟨s, [], rfl⟩
  | succ m ih =>
    intro cur s
    obtain ⟨sa, ta, ha⟩ := buffered_send_good_ok acks
      ⟨s.buf.getD cur 0, s.buf.getD (cur + 1) 0, 0⟩ s h
    obtain ⟨sb, tb, hb⟩ := buffered_send_good_ok acks
      ⟨cur &&& 0xff, (cur &&& 0xff00) >>> 8, 0x01⟩ sa h
    obtain ⟨sc, tc, hc⟩ := ih (cur + 2) sb
    refine ⟨sc, ta ++ (tb ++ tc), ?_⟩
    simp only [fillLoop, ha, hb, hc, Res.bindAny, Res.addTr]

theorem fill_page_buf_good_ok (acks : Nat → Option Nat)
    (h : ∀ i, acks i = some 0) (ps pa : Nat) (s : St) :
    ∃ s2 t, fill_page_buf acks ps pa s = .ok () s2 t :=
  fillLoop_good_ok acks h ((ps + 1) / 2) pa s

theorem vrst_vec_page_eq (vrst ps : Nat) (hps : ps ≤ vrst) (h2 : 2 ≤ ps)
    (hv : vrst < 65536) :
    (usub32 vrst ps + 2) % 65536 = vrst - ps + 2 := by
  unfold usub32; omega

theorem paged_write_zero_valid_unfold (acks : Nat → Option Nat)
    (size ps nb : Nat) (s : St) (h66 : 66 < size) (hsz : size - 66 < 65536)
    (hjump : appstartOf s.buf &&& 0xF000 = 0xC000) :
    picoboot_paged_write acks "flash" size ps 0 nb s =
      (flashPage acks ps ((usub32 (size - 66) ps + 2) % 65536)
          { s with buf := relocatedBuf (size - 66) s.buf }).bind fun _ s2 =>
      (flashPage acks ps 0 s2).bind fun _ s3 => Res.ok nb s3 [] := by
  have hv : (size - BOOTLOADER_SIZE) % 65536 = size - 66 := by
    simp only [BOOTLOADER_SIZE]; omega
  have hge : ¬ (0 : Nat) ≥ size - 66 := by omega
  have hnjump : ¬ appstartOf s.buf &&& 0xF000 ≠ 0xC000 := by
    simp [hjump]
  simp only [picoboot_paged_write, hv, ge_iff_le, Nat.le_zero, gt_iff_lt,
    Nat.not_lt_zero, if_false, ite_false, hnjump, ite_true, if_true, hge]

end Picoboot

namespace Picoboot

/-- Property stated by claim C3: on a page-zero write with a valid reset
vector and a fully acknowledging device, the call succeeds returning
`num_bytes`, and its transport trace is exactly: the fill frames of the
virtual-reset-vector page, then that page's single erase frame, then its
single write frame, then the fill frames of page zero, then page zero's
single erase frame, then its single write frame. -/
def C3prop (acks : Nat → Option Nat) (size ps nb : Nat) (s : St) : Prop :=
  let vpage := size - 66 - ps + 2
  let s1 : St := { s with buf := relocatedBuf (size - 66) s.buf }
  let r1 := fill_page_buf acks ps vpage s1
  let r2 := erase_page acks vpage r1.st
  let r3 := write_page acks vpage r2.st
  let r4 := fill_page_buf acks ps 0 r3.st
  let r5 := erase_page acks 0 r4.st
  let r6 := write_page acks 0 r5.st
  picoboot_paged_write acks "flash" size ps 0 nb s =
    Res.ok nb r6.st (r1.tr ++ r2.tr ++ r3.tr ++ r4.tr ++ r5.tr ++ r6.tr)
  ∧ r2.tr = [Event.send (serializeFrame
      ⟨vpage &&& 0xff, (vpage &&& 0xff00) >>> 8, 0x03⟩), Event.recv (some 0)]
  ∧ r3.tr = [Event.send (serializeFrame
      ⟨vpage &&& 0xff, (vpage &&& 0xff00) >>> 8, 0x05⟩), Event.recv (some 0)]
  ∧ r5.tr = [Event.send (serializeFrame ⟨0, 0, 0x03⟩), Event.recv (some 0)]
  ∧ r6.tr = [Event.send (serializeFrame ⟨0, 0, 0x05⟩), Event.recv (some 0)]

/-- Claim C3: on a page-zero write with a valid reset vector, the
virtual-reset-vector page is filled, erased and written strictly before
page zero's own fill, erase and write, and within each page the transport
order is fill frames, then one erase-page frame, then one write-page
frame. -/
theorem C3_vector_page_before_page_zero (acks : Nat → Option Nat)
    (size ps nb : Nat) (s : St) (hg : ∀ i, acks i = some 0)
    (h68 : 68 ≤ size) (hsz : size - 66 < 65536)
    (hps2 : 2 ≤ ps) (hps : ps ≤ size - 66)
    (hjump : appstartOf s.buf &&& 0xF000 = 0xC000) :
    C3prop acks size ps nb s := by
  have hvp : (usub32 (size - 66) ps + 2) % 65536 = size - 66 - ps + 2 :=
    vrst_vec_page_eq (size - 66) ps hps hps2 hsz
  have hpw := paged_write_zero_valid_unfold acks size ps nb s (by omega)
    hsz hjump
  rw [hvp] at hpw
  obtain ⟨sA, tA, hA⟩ := fill_page_buf_good_ok acks hg ps (size - 66 - ps + 2)
    { s with buf := relocatedBuf (size - 66) s.buf }
  have hB := erase_page_good acks (size - 66 - ps + 2) sA hg
  have hC := write_page_good acks (size - 66 - ps + 2)
    { sA with ackIdx := sA.ackIdx + 1 } hg
  obtain ⟨sD, tD, hD⟩ := fill_page_buf_good_ok acks hg ps 0
    { sA with ackIdx := sA.ackIdx + 1 + 1 }
  have hE := erase_page_good acks 0 sD hg
  have hF := write_page_good acks 0 { sD with ackIdx := sD.ackIdx + 1 } hg
  unfold C3prop
  simp only [hpw, flashPage, hA, hB, hC, hD, hE, hF, Res.bind, Res.addTr,
    Res.st, Res.tr, List.append_assoc, List.nil_append, List.append_nil,
    List.cons_append, List.singleton_append, Nat.zero_and,
    Nat.zero_shiftRight, and_true, true_and]

end Picoboot

namespace Picoboot

/-- The spec's scenario image: 8 KiB, page size 64, with a concrete valid
reset-vector encoding (word 0xC534) in the first two bytes. -/
def buf8k : List Nat := ((List.replicate 8192 0).set 0 0x34).set 1 0xC5

theorem C3_witness :
    (∀ i, goodAcks i = some 0) ∧ 68 ≤ 8192 ∧ 8192 - 66 < 65536 ∧
    2 ≤ 64 ∧ 64 ≤ 8192 - 66 ∧
    appstartOf (St.mk buf8k [] 0).buf &&& 0xF000 = 0xC000 ∧
    C3prop goodAcks 8192 64 64 (St.mk buf8k [] 0) :=
  ⟨fun _ => rfl, by decide, by decide, by decide, by decide, by decide,
    C3_vector_page_before_page_zero goodAcks 8192 64 64 (St.mk buf8k [] 0)
      (fun _ => rfl) (by decide) (by decide) (by decide) (by decide)
      (by decide)⟩

end Picoboot
